import Mathlib

/-!
Shallow embedding of `src/pyket.cpp` (quantum-ket/ket): a two-function
lifecycle wrapper around the external libket engine.  The source consists of

  * `str_copy(const std::string&)` — allocates `size()+1` chars, copies the
    bytes with `std::copy`, writes a trailing `'\0'`;
  * `PyKet::PyKet(const std::vector<std::string>& argv)` — computes
    `int argc = argv.size();`, fills a stack VLA `char* c_argv[argc]` with
    `str_copy` of each element, and calls `ket_init_new(argc, c_argv)`;
  * `PyKet::~PyKet()` — calls `ket_init_free()`.

Bytes are modelled as `Nat`; a freshly `new`-allocated (uninitialized) char is
`none : Option Byte`, a written char `some b`.  The C++ `int` is modelled as
32-bit (the targeted platforms), `std::vector::size` as an unbounded `Nat`,
so the `size_t → int` conversion wraps modulo `2^32` into the signed range.
The two engine entry points are opaque: a call to either is recorded as an
`EngineCall` event carrying exactly the data the wrapper passes.
-/

namespace PyKetSpec

/-- A byte of a host-side string (`char` contents); `std::string` is a
length-counted byte sequence, so embedded nulls are ordinary bytes. -/
abbrev Byte := Nat

/-- A freshly allocated `char` buffer of length `n`: `new char[n]` yields
uninitialized cells, modelled as `none`. -/
def newBuf (n : Nat) : List (Option Byte) := List.replicate n none

/-- Writing the byte `v` at index `i` of a `char` buffer. -/
def writeBuf (buf : List (Option Byte)) (i : Nat) (v : Byte) : List (Option Byte) :=
  buf.set i (some v)

/-- Sequential byte copy: `std::copy(str.begin(), str.end(), ptr)` writing the
source bytes into the buffer starting at index `i`. -/
def copyInto : List Byte → List (Option Byte) → Nat → List (Option Byte)
  | [], buf, _ => buf
  | b :: rest, buf, i => copyInto rest (writeBuf buf i b) (i + 1)

/-- Embedding of `str_copy` from `pyket.cpp`: allocate `str.size()+1` chars,
copy the bytes of `str`, write `'\0'` (byte `0`) at index `str.size()`. -/
def str_copy (str : List Byte) : List (Option Byte) :=
  let ptr := newBuf (str.length + 1)
  let ptr := copyInto str ptr 0
  writeBuf ptr str.length 0

/-- Largest value of the C++ `int` type (32-bit on the targeted platforms). -/
def INT_MAX : Nat := 2 ^ 31 - 1

/-- Conversion of a `size_t` value to `int`, as in `int argc = argv.size();`:
reduce modulo `2^32` and reinterpret in the signed range `[-2^31, 2^31)`
(two's-complement narrowing). -/
def toIntC (n : Nat) : Int :=
  if n % 2 ^ 32 < 2 ^ 31 then ((n % 2 ^ 32 : Nat) : Int)
  else ((n % 2 ^ 32 : Nat) : Int) - 2 ^ 32

/-- A call into the external engine, carrying exactly the data the wrapper
passes: `ket_init_new` receives the argument count and the argument buffers,
`ket_init_free` receives nothing. -/
inductive EngineCall
  | ket_init_new (argc : Int) (c_argv : List (List (Option Byte)))
  | ket_init_free
deriving DecidableEq

/-- Argument count passed to the engine by a call, when it is an initializer
call. -/
def argcOf : EngineCall → Option Int
  | .ket_init_new argc _ => some argc
  | .ket_init_free => none

/-- Argument array passed to the engine by a call, when it is an initializer
call. -/
def argsOf : EngineCall → Option (List (List (Option Byte)))
  | .ket_init_new _ c_argv => some c_argv
  | .ket_init_free => none

/-- Whether a call is an initializer call. -/
def isInitCall : EngineCall → Bool
  | .ket_init_new _ _ => true
  | .ket_init_free => false

/-- Whether a call is a finalizer call. -/
def isFreeCall : EngineCall → Bool
  | .ket_init_new _ _ => false
  | .ket_init_free => true

/-- Embedding of `PyKet::PyKet`: `argc` is `argv.size()` narrowed to `int`;
the loop `for (int i = 0; i < argc; i++) c_argv[i] = str_copy(argv[i]);`
copies the first `argc` elements (all of them whenever the size fits in
`int`); the constructor performs the single engine call
`ket_init_new(argc, c_argv)`. -/
def PyKet_construct (argv : List (List Byte)) : EngineCall :=
  let argc := toIntC argv.length
  let c_argv := (argv.take argc.toNat).map str_copy
  .ket_init_new argc c_argv

/-- Engine calls made by the constructor: exactly the one initializer call. -/
def PyKet_construct_calls (argv : List (List Byte)) : List EngineCall :=
  [PyKet_construct argv]

/-- Engine calls made by this layer while the session is in use: none — the
wrapper exposes nothing besides the constructor and the destructor. -/
def use_calls : List EngineCall := []

/-- Embedding of `PyKet::~PyKet`: the destructor body is the single
unconditional call `ket_init_free();`. -/
def PyKet_destruct_calls : List EngineCall := [.ket_init_free]

/-- Full per-session trace of engine calls attributable to this layer:
construction, then (empty) use, then destruction. -/
def sessionTrace (argv : List (List Byte)) : List EngineCall :=
  PyKet_construct_calls argv ++ use_calls ++ PyKet_destruct_calls

/-- Lifecycle step a given engine call represents. -/
inductive LifecycleStep
  | initStep
  | finStep
deriving DecidableEq

/-- Classification of an engine call as a lifecycle step. -/
def callKind : EngineCall → LifecycleStep
  | .ket_init_new _ _ => .initStep
  | .ket_init_free => .finStep

/-! ### Heap / world model

The `str_copy` buffers are created by `new char[...]`, i.e. on the heap; the
pointer array `c_argv` is a stack VLA released when the constructor returns.
A `Heap` records the live heap blocks (fresh id and contents); nothing in
`pyket.cpp` ever executes `delete[]`. -/

/-- Heap of live `new[]`-allocated blocks: a fresh-id counter and the list of
live blocks (id and contents), newest first. -/
structure Heap where
  next : Nat
  blocks : List (Nat × List (Option Byte))
deriving DecidableEq

/-- Allocation of one heap block with the given contents (`new char[...]`
followed by the writes that fill it). -/
def Heap.allocBlock (h : Heap) (content : List (Option Byte)) : Heap × Nat :=
  (⟨h.next + 1, (h.next, content) :: h.blocks⟩, h.next)

/-- The constructor loop over the marshalled elements: each iteration runs
`str_copy`, which heap-allocates the null-terminated copy; the list of buffer
contents (what `c_argv` points to) is returned alongside the heap. -/
def allocCopies : Heap → List (List Byte) → Heap × List (List (Option Byte))
  | h, [] => (h, [])
  | h, s :: rest =>
      let buf := str_copy s
      let hp := h.allocBlock buf
      let r := allocCopies hp.1 rest
      (r.1, buf :: r.2)

/-- World visible to the constructor: the host-owned argument vector (passed
by `const&`) and the heap. -/
structure World where
  hostArgv : List (List Byte)
  heap : Heap
deriving DecidableEq

/-- State-passing embedding of `PyKet::PyKet`: reads `hostArgv`, allocates the
`str_copy` buffers on the heap, emits the `ket_init_new` call.  The returned
world is the world after the constructor returns: the stack VLA `c_argv` is
gone, the host vector and the heap are as the body left them (the body
contains no write through the `const&` parameter and no `delete[]`). -/
def PyKet_construct_world (w : World) : World × EngineCall :=
  let argc := toIntC w.hostArgv.length
  let r := allocCopies w.heap (w.hostArgv.take argc.toNat)
  (⟨w.hostArgv, r.1⟩, .ket_init_new argc r.2)

/-- Formalization of the released-buffer reading of the spec at a given world:
after construction the heap holds exactly the blocks it held before (every
buffer allocated for the initializer call has been released again). -/
def buffersReleasedAfterConstruct (w : World) : Prop :=
  ((PyKet_construct_world w).1).heap.blocks = w.heap.blocks

/-! ### Fallible-allocation model

The only failure the layer itself can raise is `std::bad_alloc` out of
`new char[...]` inside `str_copy`; nothing in `pyket.cpp` catches anything,
so a failure propagates out of the constructor. -/

/-- Error originating in this layer. -/
inductive LayerError
  | outOfMemory
deriving DecidableEq

/-- Version of `str_copy` with a fallible allocator: `canAlloc n` tells
whether `new char[n]` succeeds; on failure the `std::bad_alloc` propagates as
`outOfMemory`. -/
def str_copyE (canAlloc : Nat → Bool) (str : List Byte) :
    Except LayerError (List (Option Byte)) :=
  if canAlloc (str.length + 1) then .ok (str_copy str) else .error .outOfMemory

/-- Version of `PyKet::PyKet` with a fallible allocator: the loop stops at the
first failed allocation and the error propagates out of the constructor (no
`try`/`catch` exists in the source). -/
def PyKet_constructE (canAlloc : Nat → Bool) (argv : List (List Byte)) :
    Except LayerError EngineCall :=
  let argc := toIntC argv.length
  match (argv.take argc.toNat).mapM (str_copyE canAlloc) with
  | .ok c_argv => .ok (.ket_init_new argc c_argv)
  | .error e => .error e

/-! ## Helper lemmas -/

theorem set_append_length (pre : List α) (x : α) (rest : List α) (v : α) :
    (pre ++ x :: rest).set pre.length v = pre ++ v :: rest := by
  induction pre with
  | nil => rfl
  | cons a as ih => simp [List.set, ih]

theorem copyInto_fill (src : List Byte) (pre post : List (Option Byte)) :
    copyInto src (pre ++ List.replicate src.length none ++ post) pre.length
      = pre ++ src.map some ++ post := by
  induction src generalizing pre with
  | nil => simp [copyInto]
  | cons b rest ih =>
      have step :
          writeBuf (pre ++ List.replicate (b :: rest).length none ++ post)
              pre.length b
            = (pre ++ [some b]) ++ List.replicate rest.length none ++ post := by
        simp only [List.length_cons, List.replicate_succ, writeBuf,
          List.append_assoc, List.cons_append]
        rw [set_append_length pre]
        simp
      have hlen : pre.length + 1 = (pre ++ [some b]).length := by simp
      calc copyInto (b :: rest)
            (pre ++ List.replicate (b :: rest).length none ++ post) pre.length
          = copyInto rest
              ((pre ++ [some b]) ++ List.replicate rest.length none ++ post)
              (pre.length + 1) := by rw [copyInto, step]
        _ = pre ++ (b :: rest).map some ++ post := by
              rw [hlen, ih (pre ++ [some b])]; simp

theorem str_copy_eq (str : List Byte) :
    str_copy str = str.map some ++ [some 0] := by
  have h1 : newBuf (str.length + 1)
      = [] ++ List.replicate str.length none ++ [none] := by
    simp [newBuf, List.replicate_succ']
  have h2 : copyInto str (newBuf (str.length + 1)) 0
      = str.map some ++ [none] := by
    rw [h1]
    have := copyInto_fill str [] [none]
    simpa using this
  show writeBuf (copyInto str (newBuf (str.length + 1)) 0) str.length 0
      = str.map some ++ [some 0]
  rw [h2, writeBuf]
  have : str.length = (str.map some).length := by simp
  rw [this, set_append_length (str.map some) none [] (some 0)]

theorem toIntC_of_le {n : Nat} (h : n ≤ 2 ^ 31 - 1) : toIntC n = n := by
  simp only [toIntC]
  split <;> omega

theorem toIntC_ne_of_gt {n : Nat} (h : 2 ^ 31 - 1 < n) : toIntC n ≠ n := by
  simp only [toIntC]
  intro hc
  split at hc <;> omega

theorem toIntC_toNat_of_le {n : Nat} (h : n ≤ 2 ^ 31 - 1) :
    (toIntC n).toNat = n := by
  rw [toIntC_of_le h]; exact Int.toNat_natCast n

theorem PyKet_construct_of_le {argv : List (List Byte)}
    (h : argv.length ≤ 2 ^ 31 - 1) :
    PyKet_construct argv
      = .ket_init_new (argv.length : Int) (argv.map str_copy) := by
  show EngineCall.ket_init_new (toIntC argv.length)
      ((argv.take (toIntC argv.length).toNat).map str_copy) = _
  rw [toIntC_toNat_of_le h, toIntC_of_le h, List.take_length]

theorem allocCopies_snd (h : Heap) (l : List (List Byte)) :
    (allocCopies h l).2 = l.map str_copy := by
  induction l generalizing h with
  | nil => rfl
  | cons s rest ih => simp [allocCopies, ih]

theorem allocCopies_blocks (h : Heap) (l : List (List Byte)) :
    (allocCopies h l).1.blocks
      = ((List.range' h.next l.length).zip (l.map str_copy)).reverse
          ++ h.blocks := by
  induction l generalizing h with
  | nil => simp [allocCopies]
  | cons s rest ih =>
      simp only [allocCopies, Heap.allocBlock, List.length_cons,
        List.range'_succ, List.map_cons, List.zip_cons_cons,
        List.reverse_cons, List.append_assoc, List.singleton_append]
      rw [ih]

theorem mapM_str_copyE_true (l : List (List Byte)) :
    l.mapM (str_copyE (fun _ => true)) = .ok (l.map str_copy) := by
  induction l with
  | nil => rfl
  | cons s rest ih =>
      rw [List.mapM_cons, ih]
      rfl

theorem PyKet_constructE_eq (canAlloc : Nat → Bool) (argv : List (List Byte)) :
    PyKet_constructE canAlloc argv =
      match (argv.take (toIntC argv.length).toNat).mapM
          (str_copyE canAlloc) with
      | .ok c_argv => .ok (.ket_init_new (toIntC argv.length) c_argv)
      | .error e => .error e := rfl

theorem PyKet_construct_world_unfold (w : World) :
    PyKet_construct_world w
      = (⟨w.hostArgv, (allocCopies w.heap
            (w.hostArgv.take (toIntC w.hostArgv.length).toNat)).1⟩,
         .ket_init_new (toIntC w.hostArgv.length)
           (allocCopies w.heap
             (w.hostArgv.take (toIntC w.hostArgv.length).toNat)).2) := rfl

/-! ## Claims -/

/-- C1: For every session instance, the constructor invokes the engine
initializer exactly once and the destructor invokes the engine finalizer
exactly once; the finalizer call never precedes the initializer call, is
never made without a prior initializer call, and there is no transition back
to the active state after finalization: the per-session trace of lifecycle
steps is exactly `[initStep, finStep]` (initializer call, then finalizer call). -/
theorem c1_lifecycle_trace (argv : List (List Byte)) :
    (sessionTrace argv).map callKind
      = [LifecycleStep.initStep, LifecycleStep.finStep] := by
  simp [sessionTrace, PyKet_construct_calls, use_calls, PyKet_destruct_calls,
    PyKet_construct, callKind]

/-- C2 counterexample: for a sequence of `2^32 + 1` strings the count passed
to the engine is not the sequence size — `argv.size()` is narrowed to the
32-bit `int` value `1`, so the claim fails as stated over all sequences. -/
theorem c2_counterexample :
    ¬ argcOf (PyKet_construct (List.replicate (2 ^ 32 + 1) ([] : List Byte)))
        = some (((List.replicate (2 ^ 32 + 1) ([] : List Byte)).length : Nat) :
          Int) := by
  intro hc
  have h1 : argcOf (PyKet_construct (List.replicate (2 ^ 32 + 1)
        ([] : List Byte)))
      = some (toIntC (List.replicate (2 ^ 32 + 1) ([] : List Byte)).length) :=
    rfl
  rw [h1, List.length_replicate] at hc
  have h2 := Option.some.inj hc
  have h3 : toIntC (2 ^ 32 + 1) = 1 := by norm_num [toIntC]
  rw [h3] at h2
  norm_num at h2

/-- C2 (amended): for every ordered sequence of at most `INT_MAX` input
strings, construction passes to the engine initializer a count equal to the
sequence size and an array whose `i`-th entry is the null-terminated owned
copy of the bytes of the `i`-th input string, order preserved. -/
theorem c2_construct_marshals (argv : List (List Byte))
    (h : argv.length ≤ INT_MAX) :
    argcOf (PyKet_construct argv) = some (argv.length : Int) ∧
    argsOf (PyKet_construct argv) = some (argv.map str_copy) ∧
    ∀ i (hi : i < argv.length),
      (argv.map str_copy).get ⟨i, by simpa using hi⟩
        = (argv.get ⟨i, hi⟩).map some ++ [some 0] := by
  have h' : argv.length ≤ 2 ^ 31 - 1 := h
  refine ⟨?_, ?_, ?_⟩
  · rw [PyKet_construct_of_le h']; rfl
  · rw [PyKet_construct_of_le h']; rfl
  · intro i hi
    rw [List.get_map, str_copy_eq]

/-- C2 witness: `construct(["myprog", "--flag"])` makes the engine receive
`count = 2` and the null-terminated byte copies of `"myprog"` and `"--flag"`
in order. -/
theorem c2_witness :
    argcOf (PyKet_construct
        [[109, 121, 112, 114, 111, 103], [45, 45, 102, 108, 97, 103]])
      = some 2 ∧
    argsOf (PyKet_construct
        [[109, 121, 112, 114, 111, 103], [45, 45, 102, 108, 97, 103]])
      = some [[some 109, some 121, some 112, some 114, some 111, some 103,
                some 0],
              [some 45, some 45, some 102, some 108, some 97, some 103,
                some 0]] := by
  have h := c2_construct_marshals
    [[109, 121, 112, 114, 111, 103], [45, 45, 102, 108, 97, 103]]
    (by norm_num [INT_MAX])
  refine ⟨h.1, ?_⟩
  rw [h.2.1]
  simp [str_copy_eq]

/-- C3: for every input string, including ones with embedded null-adjacent
byte patterns, the copy produced by `str_copy` has length exactly the
original length plus one, its first bytes equal the original bytes exactly
(no truncation), and exactly one terminating null byte follows the original
content (no double-termination). -/
theorem c3_str_copy_exact (str : List Byte) :
    (str_copy str).length = str.length + 1 ∧
    (str_copy str).take str.length = str.map some ∧
    (str_copy str).drop str.length = [some 0] := by
  rw [str_copy_eq]
  refine ⟨by simp, ?_, ?_⟩
  · have hl : str.length = (str.map some).length := by simp
    rw [hl, List.take_left]
  · have hl : str.length = (str.map some).length := by simp
    rw [hl, List.drop_left]

/-- C4: for the empty argument sequence, construction still invokes the
engine initializer, with count `0` and an empty argument array, and the
construction completes without any failure from this layer (the fallible
model returns `ok` for every allocator, since no allocation is attempted). -/
theorem c4_empty_sequence :
    PyKet_construct [] = .ket_init_new 0 [] ∧
    ∀ canAlloc, PyKet_constructE canAlloc [] = .ok (.ket_init_new 0 []) :=
  ⟨by decide, fun _ => rfl⟩

/-- C5: destruction invokes the engine finalizer unconditionally and exactly
once, passing no arguments (`ket_init_free` carries no data); the destructor
body is a constant, independent of anything that happened during the
session's use, and the full session trace contains exactly one finalizer
call. -/
theorem c5_destructor_finalizes :
    PyKet_destruct_calls = [EngineCall.ket_init_free] ∧
    ∀ argv, (sessionTrace argv).filter isFreeCall
        = [EngineCall.ket_init_free] := by
  refine ⟨rfl, fun argv => ?_⟩
  simp [sessionTrace, PyKet_construct_calls, use_calls, PyKet_destruct_calls,
    PyKet_construct, isFreeCall]

/-- C6: the only error originating in this layer is out-of-memory while
allocating the transient argument buffers during construction: for every
allocator behavior the constructor either succeeds or fails with
`outOfMemory`; a failed allocation actually propagates to the caller (shown
on a concrete run); and when every allocation succeeds the constructor
succeeds, so no other failure path exists in this layer. -/
theorem c6_error_taxonomy :
    (∀ canAlloc argv,
        (∃ c, PyKet_constructE canAlloc argv = .ok c) ∨
        PyKet_constructE canAlloc argv = .error LayerError.outOfMemory) ∧
    PyKet_constructE (fun _ => false) [[0]]
      = .error LayerError.outOfMemory ∧
    (∀ argv, PyKet_constructE (fun _ => true) argv
        = .ok (PyKet_construct argv)) := by
  refine ⟨fun canAlloc argv => ?_, rfl, fun argv => ?_⟩
  · rw [PyKet_constructE_eq]
    cases hm : (argv.take (toIntC argv.length).toNat).mapM
        (str_copyE canAlloc) with
    | ok c_argv =>
        exact Or.inl ⟨.ket_init_new (toIntC argv.length) c_argv, rfl⟩
    | error e =>
        cases e
        exact Or.inr rfl
  · rw [PyKet_constructE_eq, mapM_str_copyE_true]
    rfl

/-- C7 counterexample: constructing from host argv `[[97]]` with an empty
heap leaves the heap non-empty after the constructor returns — the owned
null-terminated copy allocated by `str_copy` is still live, so the claim that
the whole transient buffer is automatically released when the initializer
call completes is false on the code. -/
theorem c7_counterexample :
    ¬ buffersReleasedAfterConstruct ⟨[[97]], ⟨0, []⟩⟩ := by
  show ¬ ((PyKet_construct_world ⟨[[97]], ⟨0, []⟩⟩).1.heap.blocks = [])
  decide

/-- C7 (amended): the pointer array is stack-scoped and gone when the
constructor returns, and the session object retains no reference to the
buffers; but the owned null-terminated byte copies themselves are
heap-allocated and are never released by this layer — after construction the
heap holds exactly the new `str_copy` blocks on top of the old ones: nothing
previously live was freed, and every copy made for the call is still live. -/
theorem c7_copies_retained (w : World) :
    ∃ fresh,
      (PyKet_construct_world w).1.heap.blocks = fresh ++ w.heap.blocks ∧
      fresh.map Prod.snd
        = ((w.hostArgv.take (toIntC w.hostArgv.length).toNat).map
            str_copy).reverse ∧
      (PyKet_construct_world w).1.hostArgv = w.hostArgv := by
  rw [PyKet_construct_world_unfold]
  refine ⟨((List.range' w.heap.next
      (w.hostArgv.take (toIntC w.hostArgv.length).toNat).length).zip
        ((w.hostArgv.take (toIntC w.hostArgv.length).toNat).map
          str_copy)).reverse, ?_, ?_, rfl⟩
  · rw [allocCopies_blocks]
  · rw [List.map_reverse, List.map_snd_zip]
    simp

/-- C8: construction does not modify the host-supplied argument sequence —
the constructor only reads its `const&` input, so the host vector in the
world after the constructor returns is the one that was passed in, string
for string and byte for byte. -/
theorem c8_host_argv_unchanged (w : World) :
    ((PyKet_construct_world w).1).hostArgv = w.hostArgv := rfl

/-- C9: construction is deterministic in its input — two constructions given
byte-wise equal argument sequences, regardless of the state of the heap they
run in, emit identical initializer calls (same count, same argument byte
contents in the same order). -/
theorem c9_deterministic (w₁ w₂ : World)
    (h : w₁.hostArgv = w₂.hostArgv) :
    (PyKet_construct_world w₁).2 = (PyKet_construct_world w₂).2 := by
  show EngineCall.ket_init_new (toIntC w₁.hostArgv.length)
      (allocCopies w₁.heap
        (w₁.hostArgv.take (toIntC w₁.hostArgv.length).toNat)).2
    = EngineCall.ket_init_new (toIntC w₂.hostArgv.length)
      (allocCopies w₂.heap
        (w₂.hostArgv.take (toIntC w₂.hostArgv.length).toNat)).2
  rw [allocCopies_snd, allocCopies_snd, h]

/-- C9 witness: two runs on equal host argv but different heaps emit the same
initializer call. -/
theorem c9_witness :
    (PyKet_construct_world ⟨[[97]], ⟨0, []⟩⟩).2
      = (PyKet_construct_world ⟨[[97]], ⟨5, [(3, [some 1])]⟩⟩).2 :=
  c9_deterministic _ _ rfl

/-- C10: the count passed to the engine initializer is the sequence size
converted to a signed 32-bit machine integer (`int argc = argv.size();`);
consequently the count equals the size whenever the size is at most
`INT_MAX`, and for any larger sequence the conversion narrows and the count
no longer equals the size. -/
theorem c10_argc_narrowing :
    (∀ argv : List (List Byte),
        argcOf (PyKet_construct argv) = some (toIntC argv.length)) ∧
    (∀ argv : List (List Byte), argv.length ≤ INT_MAX →
        argcOf (PyKet_construct argv) = some (argv.length : Int)) ∧
    (∀ argv : List (List Byte), INT_MAX < argv.length →
        argcOf (PyKet_construct argv) ≠ some (argv.length : Int)) := by
  refine ⟨fun argv => rfl, fun argv h => ?_, fun argv h hc => ?_⟩
  · have h1 : argcOf (PyKet_construct argv) = some (toIntC argv.length) := rfl
    rw [h1, toIntC_of_le h]
  · have h1 : argcOf (PyKet_construct argv) = some (toIntC argv.length) := rfl
    rw [h1] at hc
    exact toIntC_ne_of_gt h (Option.some.inj hc)

/-- C10 witness: a 2-element sequence yields count `2`; a sequence of
`2^32 + 1` empty strings yields a count different from its size. -/
theorem c10_witness :
    argcOf (PyKet_construct [[1], [2]]) = some 2 ∧
    argcOf (PyKet_construct (List.replicate (2 ^ 32 + 1) ([] : List Byte)))
      ≠ some (((List.replicate (2 ^ 32 + 1) ([] : List Byte)).length : Nat) :
        Int) := by
  constructor
  · exact c10_argc_narrowing.2.1 [[1], [2]] (by norm_num [INT_MAX])
  · exact c10_argc_narrowing.2.2 _
      (by rw [List.length_replicate]; norm_num [INT_MAX])

end PyKetSpec
